import Mathlib

/-!
Shallow embedding of the GitHubFS FUSE bridge (src/src/fs.rs and
src/src/main.rs).  The in-memory state of `GitHubFS` (the `repos` and
`files` hash maps and the `next_inode` counter) is modelled as explicit
state; the remote GitHub content API is a parameter (an oracle from
repository full name and path to a listing, or to file bytes), and each
operation additionally reports the remote calls it issued, so that
laziness and fetch-count properties can be stated.  Machine integers
(`u64`, `i64`, `u32`, `usize`) are modelled as `Nat`/`Int` with explicit
two's-complement casts where the source performs an `as` conversion.
-/

namespace GitHubFSModel

/-- Kind of a filesystem node, mirroring `fuser::FileType` as used by the
source (only `Directory` and `RegularFile` occur). -/
inductive FileType
  | directory
  | regularFile
deriving DecidableEq, Repr

/-- Mirror of `struct GitHubRepository { name, full_name }`. -/
structure GitHubRepository where
  name : String
  full_name : String
deriving DecidableEq, Repr

/-- Mirror of `struct GitHubFile { name, path, file_type, download_url }`. -/
structure GitHubFile where
  name : String
  path : String
  file_type : String
  download_url : Option String
deriving DecidableEq, Repr

/-- Mirror of `fuser::FileAttr` restricted to the fields the source sets;
times are seconds since the epoch (the source always uses `UNIX_EPOCH`,
i.e. 0). -/
structure FileAttr where
  ino : Nat
  size : Nat
  blocks : Nat
  atime : Nat
  mtime : Nat
  ctime : Nat
  crtime : Nat
  kind : FileType
  perm : Nat
  nlink : Nat
  uid : Nat
  gid : Nat
  rdev : Nat
  blksize : Nat
  flags : Nat
deriving DecidableEq, Repr

/-- Mirror of `struct GitHubFS` minus the HTTP client and credentials
(these only parameterize the remote oracle): the `repos` map, the `files`
map and the `next_inode` counter.  The Rust `HashMap`s are modelled as
association lists with insert-replacing-existing-key semantics. -/
structure GitHubFS where
  repos : List (Nat × GitHubRepository)
  files : List (Nat × List GitHubFile)
  next_inode : Nat
deriving DecidableEq, Repr

/-- `HashMap::get`: first binding of the key, if any. -/
def mapGet {α : Type} : List (Nat × α) → Nat → Option α
  | [], _ => none
  | (k2, v) :: rest, k => if k2 = k then some v else mapGet rest k

/-- `HashMap::insert`: replace the binding of the key if present,
otherwise append. -/
def mapInsert {α : Type} : List (Nat × α) → Nat → α → List (Nat × α)
  | [], k, v => [(k, v)]
  | (k2, v2) :: rest, k, v =>
    if k2 = k then (k, v) :: rest else (k2, v2) :: mapInsert rest k v

/-- The `libc::ENOENT` error code. -/
def ENOENT : Nat := 2

/-- The `libc::EISDIR` error code (never produced by the source; used to
state the error-classification claim). -/
def EISDIR : Nat := 21

/-- Mirror of `GitHubFS::next_inode`: return the counter and bump it. -/
def nextInode (st : GitHubFS) : Nat × GitHubFS :=
  (st.next_inode, { st with next_inode := st.next_inode + 1 })

/-- Mirror of `GitHubFS::attr`'s returned attribute record: kind is
`Directory` when the inode is 1 or a key of `repos`, else `RegularFile`;
size 0, permission `0o755`, all times `UNIX_EPOCH`. -/
def attrOf (st : GitHubFS) (ino : Nat) : FileAttr :=
  let kind :=
    if ino = 1 ∨ (mapGet st.repos ino).isSome then FileType.directory
    else FileType.regularFile
  { ino := ino, size := 0, blocks := 1, atime := 0, mtime := 0, ctime := 0,
    crtime := 0, kind := kind, perm := 0o755, nlink := 2, uid := 0, gid := 0,
    rdev := 0, blksize := 512, flags := 0 }

/-- Mirror of `GitHubFS::attr`: an `io::Result<FileAttr>` that is always
`Ok` (the source has no failing branch). -/
def attr (st : GitHubFS) (ino : Nat) : Except Nat FileAttr :=
  Except.ok (attrOf st ino)

/-- Reply of the `getattr` operation: attributes with a validity duration
in seconds, or the ENOENT error. -/
inductive AttrReply
  | attrRep (ttlSecs : Nat) (a : FileAttr)
  | errNoEnt
deriving DecidableEq, Repr

/-- Mirror of `Filesystem::getattr`: replies with `attr`'s result, or
ENOENT if `attr` errs (a branch that is unreachable, since `attr` always
returns `Ok`). -/
def getattr (st : GitHubFS) (ino : Nat) : AttrReply :=
  match attr st ino with
  | Except.ok a => AttrReply.attrRep 1 a
  | Except.error _ => AttrReply.errNoEnt

/-- Reply of the `lookup` operation: an entry (ttl, attributes,
generation) or the ENOENT error. -/
inductive LookupReply
  | entry (ttlSecs : Nat) (a : FileAttr) (generation : Nat)
  | errNoEnt
deriving DecidableEq, Repr

/-- Mirror of `Filesystem::lookup`.  For `parent == 1` it searches the
`repos` map by repository name (no state change); otherwise it searches
`files[parent]` by file name, and on a hit allocates a fresh inode with
`next_inode` and replies with that inode's attributes.  All other cases
reply ENOENT. -/
def lookup (st : GitHubFS) (parent : Nat) (name : String) :
    LookupReply × GitHubFS :=
  if parent = 1 then
    match st.repos.find? (fun p => p.2.name == name) with
    | some (inode, _) => (LookupReply.entry 1 (attrOf st inode) 0, st)
    | none => (LookupReply.errNoEnt, st)
  else
    match mapGet st.files parent with
    | some fs =>
      match fs.find? (fun f => f.name == name) with
      | some _ =>
        let (ino, st1) := nextInode st
        (LookupReply.entry 1 (attrOf st1 ino) 0, st1)
      | none => (LookupReply.errNoEnt, st)
    | none => (LookupReply.errNoEnt, st)

/-- The inode a lookup reply reports, if it is an entry. -/
def replyIno : LookupReply → Option Nat
  | LookupReply.entry _ a _ => some a.ino
  | LookupReply.errNoEnt => none

/-- One entry added to a `ReplyDirectory`: the inode reported, the cursor
offset of the following entry, the kind, and the name. -/
structure DirEntry where
  ino : Nat
  off : Int
  kind : FileType
  name : String
deriving DecidableEq, Repr

/-- The loop of `Filesystem::readdir` over a (cloned) file listing:
entry `i` gets a freshly allocated inode (via `next_inode`), a singleton
vector `[file]` is inserted into `files` under that inode, and the entry
is reported at cursor offset `i + 3`. -/
def readdirLoop : List GitHubFile → Nat → GitHubFS → List DirEntry × GitHubFS
  | [], _, st => ([], st)
  | f :: rest, i, st =>
    let kind :=
      if f.file_type == "dir" then FileType.directory else FileType.regularFile
    let (ino, st1) := nextInode st
    let st2 := { st1 with files := mapInsert st1.files ino [f] }
    let (es, st3) := readdirLoop rest (i + 1) st2
    ({ ino := ino, off := Int.ofNat (i + 3), kind := kind, name := f.name } :: es,
      st3)

/-- Mirror of `Filesystem::readdir`.  A nonzero offset replies ok with no
entries.  Offset 0 emits `.` and `..` (both reported with the listed
directory's own inode), then for inode 1 the repositories, else the
entries of `files[ino]` via `readdirLoop` (when `files[ino]` is absent,
only `.` and `..`). -/
def readdir (st : GitHubFS) (ino : Nat) (offset : Int) :
    List DirEntry × GitHubFS :=
  if offset = 0 then
    let dots : List DirEntry :=
      [{ ino := ino, off := 1, kind := FileType.directory, name := "." },
       { ino := ino, off := 2, kind := FileType.directory, name := ".." }]
    if ino = 1 then
      (dots ++ st.repos.map (fun p =>
        { ino := p.1, off := Int.ofNat p.1, kind := FileType.directory,
          name := p.2.name }), st)
    else
      match mapGet st.files ino with
      | some fs =>
        let (es, st1) := readdirLoop fs 0 st
        (dots ++ es, st1)
      | none => (dots, st)
  else
    ([], st)

/-- Rust's `x as usize` on an `i64` value: two's-complement
reinterpretation, i.e. the value modulo 2^64. -/
def usizeCast (x : Int) : Nat :=
  (x % ((2 : Int) ^ 64)).toNat

/-- Rust slice indexing `c[a..b]`: defined (the sub-slice) when
`a ≤ b ≤ c.len()`, otherwise the program panics (`none`). -/
def rustSlice (c : List Nat) (a b : Nat) : Option (List Nat) :=
  if a ≤ b ∧ b ≤ c.length then some ((c.drop a).take (b - a)) else none

/-- The scan of `Filesystem::read` over `self.files.values()`: the first
file entry, in any value vector, whose `path` string equals the given
string. -/
def findFileByPath : List (Nat × List GitHubFile) → String → Option GitHubFile
  | [], _ => none
  | (_, fs) :: rest, s =>
    match fs.find? (fun f => f.path == s) with
    | some f => some f
    | none => findFileByPath rest s

/-- Reply of the `read` operation: data bytes, an error code, or a panic
of the process (Rust slice indexing out of range). -/
inductive ReadReply
  | dataRep (bytes : List Nat)
  | errRep (code : Nat)
  | panicked
deriving DecidableEq, Repr

/-- Mirror of `Filesystem::read`, parameterized by the remote content
oracle (`fetch_file_content`, called by the source with the file's `path`
for both arguments).  The second component counts remote content fetches
issued.  The target file is located by comparing each cached entry's
`path` against `ino.to_string()`; a located file without a download url,
or no located file at all, replies ENOENT without fetching.  On a fetch
the returned content is sliced as
`content[offset as usize .. min(content.len(), (offset + size as i64) as usize)]`,
which panics when the lower bound exceeds the upper. -/
def read (fetchContent : String → String → Option (List Nat))
    (st : GitHubFS) (ino : Nat) (offset : Int) (size : Nat) :
    ReadReply × Nat :=
  match findFileByPath st.files (toString ino) with
  | some f =>
    match f.download_url with
    | some _ =>
      match fetchContent f.path f.path with
      | some content =>
        let a := usizeCast offset
        let b := min content.length (usizeCast (offset + Int.ofNat size))
        match rustSlice content a b with
        | some d => (ReadReply.dataRep d, 1)
        | none => (ReadReply.panicked, 1)
      | none => (ReadReply.errRep ENOENT, 1)
    | none => (ReadReply.errRep ENOENT, 0)
  | none => (ReadReply.errRep ENOENT, 0)

/-- The remote listing API: repository full name and path to the listing
of that path's immediate children (`none` models a failed request). -/
abbrev Api := String → String → Option (List GitHubFile)

/-- Outcome of a `load_files` call: the source's local `loaded_files`
vector of `(inode, file)` pairs (`none` models an `Err` return), the
state after the call, and the remote listing calls issued, in order. -/
structure LoadOut where
  result : Option (List (Nat × GitHubFile))
  st : GitHubFS
  calls : List (String × String)
deriving DecidableEq, Repr

/-- The loop of `load_files` over the fetched listing: each entry gets a
fresh inode via `next_inode` and is pushed on `loaded_files`; for an
entry of type `dir` the source recursively calls `load_files` on the
entry's path (here the `recur` argument) and inserts the returned
listing into `files` under the entry's inode, propagating an `Err`
immediately. -/
def loadLoop (recur : GitHubFS → String → LoadOut) :
    GitHubFS → List GitHubFile → LoadOut
  | st, [] => { result := some [], st := st, calls := [] }
  | st, f :: rest =>
    let (ino, st1) := nextInode st
    if f.file_type == "dir" then
      let out := recur st1 f.path
      match out.result with
      | none => { result := none, st := out.st, calls := out.calls }
      | some subLoaded =>
        let st2 :=
          { out.st with
            files := mapInsert out.st.files ino (subLoaded.map Prod.snd) }
        let tail := loadLoop recur st2 rest
        match tail.result with
        | none =>
          { result := none, st := tail.st, calls := out.calls ++ tail.calls }
        | some loadedRest =>
          { result := some ((ino, f) :: loadedRest), st := tail.st,
            calls := out.calls ++ tail.calls }
    else
      let tail := loadLoop recur st1 rest
      match tail.result with
      | none => { result := none, st := tail.st, calls := tail.calls }
      | some loadedRest =>
        { result := some ((ino, f) :: loadedRest), st := tail.st,
          calls := tail.calls }

/-- Mirror of `GitHubFS::load_files`, parameterized by the remote listing
oracle and a recursion-depth fuel (the source recurses on the remote
tree, which Lean cannot see is finite; every theorem below supplies ample
fuel for its concrete tree).  Looks up the repository, issues the remote
listing call, runs `loadLoop` on the result, and finally inserts the
fetched listing into `files` under `repo_id`.  The Rust function's return
value is `loaded_files` with the inodes projected away. -/
def load_files (api : Api) : Nat → GitHubFS → Nat → String → LoadOut
  | 0, st, _, _ => { result := none, st := st, calls := [] }
  | fuel + 1, st, repoId, path =>
    match mapGet st.repos repoId with
    | none => { result := none, st := st, calls := [] }
    | some repo =>
      match api repo.full_name path with
      | none => { result := none, st := st, calls := [(repo.full_name, path)] }
      | some fs =>
        let out := loadLoop (fun s p => load_files api fuel s repoId p) st fs
        match out.result with
        | none =>
          { result := none, st := out.st,
            calls := (repo.full_name, path) :: out.calls }
        | some loaded =>
          { result := some loaded,
            st := { out.st with files := mapInsert out.st.files repoId fs },
            calls := (repo.full_name, path) :: out.calls }

/-- Mirror of the first half of `GitHubFS::new` (lines 50–66): the state
after the struct literal (`next_inode = 2`, empty maps) and the loop
inserting repository `index` at inode `index + 2`.  Note the loop does
not advance `next_inode`. -/
def initState (userRepos : List GitHubRepository) : GitHubFS :=
  { repos := userRepos.enum.map (fun p => (p.1 + 2, p.2)),
    files := [],
    next_inode := 2 }

/-- Mirror of `GitHubFS::new`: build `initState`, then for every
repository inode call `load_files(repo_inode, "")`, logging and ignoring
errors (the state mutations of a failed call are kept).  Returns the
final state and the concatenated remote listing calls. -/
def newFS (api : Api) (fuel : Nat) (userRepos : List GitHubRepository) :
    GitHubFS × List (String × String) :=
  let st0 := initState userRepos
  (userRepos.enum.map (fun p => p.1 + 2)).foldl
    (fun acc ino =>
      let out := load_files api fuel acc.1 ino ""
      (out.st, acc.2 ++ out.calls))
    (st0, [])

/-- Mirror of `fuser::MountOption` restricted to the variants main.rs
produces. -/
inductive MountOption
  | dev
  | nodev
  | suid
  | nosuid
  | ro
  | exeCall
  | noexeCall
  | atime
  | noatime
  | dirsync
  | syncOpt
  | asyncOpt
deriving DecidableEq, Repr

/-- Mirror of one arm of the option-translation match in `main` (lines
49–74): a recognized option string maps to its `MountOption`; `"rw"`
returns the read-only configuration error; anything else the unknown-
option error. -/
def parseOption (opt : String) : Except String MountOption :=
  if opt = "dev" then Except.ok MountOption.dev
  else if opt = "nodev" then Except.ok MountOption.nodev
  else if opt = "suid" then Except.ok MountOption.suid
  else if opt = "nosuid" then Except.ok MountOption.nosuid
  else if opt = "ro" then Except.ok MountOption.ro
  else if opt = "exec" then Except.ok MountOption.exeCall
  else if opt = "noexec" then Except.ok MountOption.noexeCall
  else if opt = "atime" then Except.ok MountOption.atime
  else if opt = "noatime" then Except.ok MountOption.noatime
  else if opt = "dirsync" then Except.ok MountOption.dirsync
  else if opt = "sync" then Except.ok MountOption.syncOpt
  else if opt = "async" then Except.ok MountOption.asyncOpt
  else if opt = "rw" then Except.error "GitHubFS filesystem must be read-only"
  else Except.error ("Unknown option (" ++ opt ++ ")")

/-- Mirror of the option loop in `main`: translate the options in order,
returning the first error (the source's early `return Err(...)`). -/
def parseOptions : List String → Except String (List MountOption)
  | [] => Except.ok []
  | o :: rest =>
    match parseOption o with
    | Except.error e => Except.error e
    | Except.ok m =>
      match parseOptions rest with
      | Except.error e => Except.error e
      | Except.ok ms => Except.ok (m :: ms)

/-- Outcome of `main` with respect to mounting: either `fuser::mount2`
is reached with the translated options, or `main` returns a
configuration error before the mount call. -/
inductive MainOutcome
  | mounted (opts : List MountOption)
  | configError (msg : String)
deriving DecidableEq, Repr

/-- Mirror of the tail of `main`: the mount call happens exactly when
option translation succeeded; any translation error returns from `main`
before `fuser::mount2` is attempted. -/
def runMain (opts : List String) : MainOutcome :=
  match parseOptions opts with
  | Except.ok ms => MainOutcome.mounted ms
  | Except.error e => MainOutcome.configError e

/-! Concrete fixtures: a repository `r` of owner `u`, a plain file `a` at
the repository root, a subdirectory `sub` with one file inside, and a
file whose remote path happens to be the decimal string `5`. -/

/-- A repository fixture. -/
def rp : GitHubRepository := { name := "r", full_name := "u/r" }

/-- A plain root-level file fixture. -/
def fileA : GitHubFile :=
  { name := "a", path := "a", file_type := "file", download_url := some "u" }

/-- A root-level subdirectory fixture. -/
def subDir : GitHubFile :=
  { name := "sub", path := "sub", file_type := "dir", download_url := none }

/-- A file inside the subdirectory `sub`. -/
def leafA : GitHubFile :=
  { name := "leaf", path := "sub/leaf", file_type := "file",
    download_url := some "u2" }

/-- A file whose remote path is the decimal string `5`. -/
def f5 : GitHubFile :=
  { name := "5", path := "5", file_type := "file", download_url := some "u5" }

/-- A session state as `new` would leave it for one repository at inode 2
whose root listing `[fileA]` is cached, with the counter at 3. -/
def stRepoWithFile : GitHubFS :=
  { repos := [(2, rp)], files := [(2, [fileA])], next_inode := 3 }

/-- A session state whose cached listing holds the file with remote path
`5`. -/
def stFileFive : GitHubFS :=
  { repos := [], files := [(2, [f5])], next_inode := 3 }

/-- Remote listing oracle for a repository whose root holds the
subdirectory `sub`, which in turn holds one file. -/
def apiSub : Api := fun fn p =>
  if fn = "u/r" ∧ p = "" then some [subDir]
  else if fn = "u/r" ∧ p = "sub" then some [leafA]
  else none

/-- Remote listing oracle for a repository whose root holds one plain
file. -/
def apiFlat : Api := fun fn p =>
  if fn = "u/r" ∧ p = "" then some [fileA] else none

/-- Content oracle serving the one-byte content `[10]` for the file with
remote path `5`. -/
def fetchOne : String → String → Option (List Nat) := fun r p =>
  if r = "5" ∧ p = "5" then some [10] else none

/-- Content oracle with no content at all. -/
def noFetch : String → String → Option (List Nat) := fun _ _ => none

/-- Claim C1 (code bug, evaluation at the failing input): two `lookup`
calls with the same parent inode 2 and the same name report different
inodes — the first allocates inode 3, the second inode 4 — so repeated
resolution of the same remote path does not yield the same inode
number. -/
theorem lookup_reallocates_inode_each_call :
    replyIno (lookup stRepoWithFile 2 "a").1 = some 3 ∧
    replyIno (lookup (lookup stRepoWithFile 2 "a").2 2 "a").1 = some 4 := by
  decide

/-- Claim C2 (code bug, evaluation at the failing input): initializing a
session for one repository whose root listing holds only the
subdirectory `sub` issues two remote listing calls — the root listing
and, recursively, the listing of `sub`'s own children — although no
`readdir` or `lookup` ever targeted `sub`. -/
theorem newFS_fetches_subdirectory_children :
    (newFS apiSub 5 [rp]).2 = [("u/r", ""), ("u/r", "sub")] := by
  decide

/-- Claim C3 (code bug, evaluation at the failing input): for the file
with content `[10]` of length 1, `read` at offset 0 returns the content
slice and at offset 1 (exactly the length) returns an empty result, but
at offset 2 (beyond the length) the slice indexing panics instead of
returning an empty result. -/
theorem read_offset_beyond_length_panics :
    read fetchOne stFileFive 5 0 4 = (ReadReply.dataRep [10], 1) ∧
    read fetchOne stFileFive 5 1 4 = (ReadReply.dataRep [], 1) ∧
    read fetchOne stFileFive 5 2 4 = (ReadReply.panicked, 1) := by
  decide

/-- Claim C4 (code bug, evaluation at the failing input): after `new`
assigns the single repository to inode 2, the `next_inode` counter still
starts at 2, so the very first entry loaded from the repository root is
also assigned inode 2 — two distinct entries (the repository and the
file `a`) share an inode number. -/
theorem repo_and_file_share_inode :
    mapGet (initState [rp]).repos 2 = some rp ∧
    (load_files apiFlat 2 (initState [rp]) 2 "").result = some [(2, fileA)] := by
  decide

/-- Claim C5 (code bug, evaluation at the failing input): inode 1 is a
directory according to the source's own `attr`, yet `read` on it replies
ENOENT (2), not the IsADirectory error EISDIR (21); no code path of
`read` produces EISDIR. -/
theorem read_directory_replies_enoent :
    (attrOf stRepoWithFile 1).kind = FileType.directory ∧
    read noFetch stRepoWithFile 1 0 4 = (ReadReply.errRep ENOENT, 0) ∧
    ENOENT ≠ EISDIR := by
  decide

/-- Claim C6 (code bug, evaluation at the failing input): inode 999 is
recorded in neither the `repos` map nor the `files` map, yet `getattr`
succeeds with default attributes (kind regular file, size 0) instead of
failing with NotFound; the NotFound branch of `getattr` is unreachable
because `attr` always returns `Ok`. -/
theorem getattr_unknown_inode_succeeds :
    mapGet stRepoWithFile.repos 999 = none ∧
    mapGet stRepoWithFile.files 999 = none ∧
    getattr stRepoWithFile 999 ≠ AttrReply.errNoEnt ∧
    (attrOf stRepoWithFile 999).kind = FileType.regularFile ∧
    (attrOf stRepoWithFile 999).size = 0 := by
  decide

/-- Claim C7 (code bug, evaluation at the failing input): enumerating the
root from offset 0 hands out three entries (at cursor offsets 1, 2, 2),
but resuming from the previously handed-out cursor 1 produces no entries
at all — `readdir` replies ok with an empty listing for every nonzero
offset instead of the entries that follow the cursor. -/
theorem readdir_nonzero_cursor_yields_nothing :
    ((readdir stRepoWithFile 1 0).1.map DirEntry.name) = [".", "..", "r"] ∧
    (readdir stRepoWithFile 1 1).1 = [] := by
  decide

/-- Claim C8 counterexample: inode 5, a regular file according to the
source's `attr`, carries permission `0o755`, not the claimed `0o644`. -/
theorem file_attr_perm_not_0644 :
    (attrOf stRepoWithFile 5).kind = FileType.regularFile ∧
    (attrOf stRepoWithFile 5).perm = 0o755 ∧
    (attrOf stRepoWithFile 5).perm ≠ 0o644 := by
  decide

/-- Claim C8 as amended: attributes returned for any inode carry the
fixed permission bits `0o755` — for directories and regular files alike —
and the write bits for group and other users are never set. -/
theorem attr_perm_always_0755 (st : GitHubFS) (ino : Nat) :
    (attrOf st ino).perm = 0o755 ∧ (attrOf st ino).perm &&& 0o022 = 0 := by
  refine ⟨rfl, ?_⟩
  show (0o755 : Nat) &&& 0o022 = 0
  decide

/-- Claim C9: whenever the mount option `rw` appears among the requested
options, `main`'s option translation returns a descriptive configuration
error, so `fuser::mount2` is never reached and no filesystem operation is
ever dispatched on a writable mount. -/
theorem rw_option_rejected_before_mount (opts : List String)
    (h : "rw" ∈ opts) :
    ∃ msg, runMain opts = MainOutcome.configError msg := by
  have hp : ∃ e, parseOptions opts = Except.error e := by
    induction opts with
    | nil => cases h
    | cons o rest ih =>
      cases h with
      | head =>
        exact ⟨"GitHubFS filesystem must be read-only", rfl⟩
      | tail _ hmem =>
        obtain ⟨e, he⟩ := ih hmem
        cases hpo : parseOption o with
        | error e2 => exact ⟨e2, by simp [parseOptions, hpo]⟩
        | ok m => exact ⟨e, by simp [parseOptions, hpo, he]⟩
  obtain ⟨e, he⟩ := hp
  exact ⟨e, by simp [runMain, he]⟩

/-- Witness for claim C9: requesting the single option `rw` yields the
read-only configuration error before any mount. -/
theorem rw_option_rejected_before_mount_witness :
    ∃ msg, runMain ["rw"] = MainOutcome.configError msg :=
  rw_option_rejected_before_mount ["rw"] (by decide)

/-- Claim C10: `read` locates its target by comparing each cached
entry's remote path string against the decimal rendering of the
requested inode; when no cached file entry's path equals that string,
`read` replies ENOENT and issues zero remote content fetches. -/
theorem read_unmatched_inode_enoent_no_fetch
    (fetchContent : String → String → Option (List Nat)) (st : GitHubFS)
    (ino : Nat) (offset : Int) (size : Nat)
    (h : ∀ pr ∈ st.files, ∀ f ∈ pr.2, f.path ≠ toString ino) :
    read fetchContent st ino offset size = (ReadReply.errRep ENOENT, 0) := by
  have hfind : ∀ l : List (Nat × List GitHubFile),
      (∀ pr ∈ l, ∀ f ∈ pr.2, f.path ≠ toString ino) →
      findFileByPath l (toString ino) = none := by
    intro l
    induction l with
    | nil => intro _; rfl
    | cons pr rest ih =>
      intro hl
      obtain ⟨k, fs⟩ := pr
      have h1 : fs.find? (fun f => f.path == toString ino) = none := by
        rw [List.find?_eq_none]
        intro f hf
        simpa using hl (k, fs) (List.mem_cons_self _ _) f hf
      simp only [findFileByPath, h1]
      exact ih (fun pr hpr f hf => hl pr (List.mem_cons_of_mem _ hpr) f hf)
  unfold read
  rw [hfind st.files h]

/-- Witness for claim C10: inode 5 has decimal rendering `5`, which no
cached entry's path equals, and `read` replies ENOENT with zero
fetches. -/
theorem read_unmatched_inode_enoent_no_fetch_witness :
    read noFetch stRepoWithFile 5 0 4 = (ReadReply.errRep ENOENT, 0) :=
  read_unmatched_inode_enoent_no_fetch noFetch stRepoWithFile 5 0 4 (by decide)

end GitHubFSModel
